import Mathlib

/-!
Verification development for the Gemini NLP adapter in `src/gemini_service.py`.

We shallowly embed the adapter's pure logic:
* `getFieldDefaultValue` embeds `SimpleGeminiGenerator._get_field_default_value`;
* `createFallbackInstance` embeds the instance-building loops of
  `SimpleGeminiGenerator._create_fallback_response`;
* `waitIfNeeded` embeds `RateLimiter.wait_if_needed`, including the
  (non-reentrant) `asyncio.Lock` held across the recursive re-check, with a
  fuel parameter: a result of `none` for every fuel means the coroutine
  never completes;
* `retryLoop` / `generateWithRetry` embed `SimpleGeminiGenerator._generate_with_retry`;
* `embedLoop` embeds `SimpleGeminiEmbedder.embed`;
* `moderationCheck` embeds `SimpleGeminiModeration.check`.

Timestamps and delays are rationals (Python floats carry no rounding-relevant
arithmetic here); remote-call outcomes are parameters of the embedding, since
the network and the pydantic validator are outside the repository.
-/

namespace GeminiService

/-- JSON-like values, the payloads the adapter synthesizes. -/
inductive JsonVal : Type where
  | null : JsonVal
  | bool (b : Bool) : JsonVal
  | int (n : ℤ) : JsonVal
  | num (q : ℚ) : JsonVal
  | str (s : String) : JsonVal
  | arr (elems : List JsonVal) : JsonVal
  | obj (fields : List (String × JsonVal)) : JsonVal

/-- The keys of a JSON-schema fragment that `_get_field_default_value` reads
(`type`, `anyOf`, `enum`, `$ref`), plus the `default` key a schema may carry
(the source never reads it; we include it so that claims about explicit
defaults are statable). `anyOf := none` models the key being absent, while
`anyOf := some []` models the key being present with an empty list, matching
the Python `"anyOf" in field_info` membership tests. -/
inductive FieldInfo : Type where
  | mk (type : Option String) (anyOf : Option (List FieldInfo))
      (enum : Option (List JsonVal)) (ref : Option String)
      (dflt : Option JsonVal) : FieldInfo

def FieldInfo.type : FieldInfo → Option String
  | .mk t _ _ _ _ => t

def FieldInfo.anyOf : FieldInfo → Option (List FieldInfo)
  | .mk _ a _ _ _ => a

def FieldInfo.enum : FieldInfo → Option (List JsonVal)
  | .mk _ _ e _ _ => e

def FieldInfo.ref : FieldInfo → Option String
  | .mk _ _ _ r _ => r

def FieldInfo.dflt : FieldInfo → Option JsonVal
  | .mk _ _ _ _ d => d

/-- The empty dict `{}`: what `properties.get(field_name, {})` yields for a
required field that has no declared schema. -/
def emptyFieldInfo : FieldInfo := .mk none none none none none

mutual

/-- Embeds `SimpleGeminiGenerator._get_field_default_value` (gemini_service.py
lines 166-213): type-keyword defaults first, then the first non-null variant
of `anyOf`, then the first enum value (empty enum falls through), then `{}`
for `$ref`, then the string sentinel. The `default` key is never consulted,
exactly as in the source. -/
def getFieldDefaultValue : FieldInfo → JsonVal
  | .mk type anyOf enum ref _dflt =>
    if type = some "array" then .arr []
    else if type = some "boolean" then .bool false
    else if type = some "integer" then .int 0
    else if type = some "number" then .num 0
    else if type = some "object" then .obj []
    else if type = some "string" then .str "unavailable"
    else
      match anyOf with
      | some options => firstNonNullDefault options
      | none =>
        match enum with
        | some (v :: _) => v
        | _ =>
          match ref with
          | some _ => .obj []
          | none => .str "unavailable"

/-- The `anyOf` loop of `_get_field_default_value`: skip variants whose
`type` is `"null"`, recurse into the first remaining one; `None` (here
`JsonVal.null`) when every variant is null-typed or the list is empty. -/
def firstNonNullDefault : List FieldInfo → JsonVal
  | [] => .null
  | option :: rest =>
    if option.type = some "null" then firstNonNullDefault rest
    else getFieldDefaultValue option

end

/-- A field schema that only declares a primitive `type` keyword. -/
def primField (t : String) : FieldInfo := .mk (some t) none none none none

mutual

/-- Follows the WORDS of the specification (section 4.1), for comparison with
the source's `getFieldDefaultValue`: precedence explicit default, then first
non-null variant of a union, then first enum value, then type-based default. -/
def specFieldDefaultValue : FieldInfo → JsonVal
  | .mk type anyOf enum _ref dflt =>
    match dflt with
    | some v => v
    | none =>
      match anyOf with
      | some options => specFirstNonNullDefault options
      | none =>
        match enum with
        | some (v :: _) => v
        | _ =>
          if type = some "array" then .arr []
          else if type = some "boolean" then .bool false
          else if type = some "integer" then .int 0
          else if type = some "number" then .num 0
          else if type = some "object" then .obj []
          else .str "unavailable"

/-- The union walk of `specFieldDefaultValue`: first non-null variant. -/
def specFirstNonNullDefault : List FieldInfo → JsonVal
  | [] => .null
  | option :: rest =>
    if option.type = some "null" then specFirstNonNullDefault rest
    else specFieldDefaultValue option

end

/-- Python dict assignment `d[k] = v` on an insertion-ordered dict
represented as an association list. -/
def dictInsert (d : List (String × JsonVal)) (k : String) (v : JsonVal) :
    List (String × JsonVal) :=
  if d.any (fun q => q.1 == k) then
    d.map (fun q => if q.1 == k then (k, v) else q)
  else d ++ [(k, v)]

/-- `properties.get(field_name, {})`. -/
def lookupProp (props : List (String × FieldInfo)) (name : String) : FieldInfo :=
  match props.find? (fun q => q.1 == name) with
  | some q => q.2
  | none => emptyFieldInfo

/-- The two instance-building loops of
`SimpleGeminiGenerator._create_fallback_response` (lines 234-242): one
default per required field, then one per not-yet-present optional property,
in insertion order. -/
def createFallbackInstance (required : List String)
    (props : List (String × FieldInfo)) : List (String × JsonVal) :=
  let inst := required.foldl
    (fun acc name => dictInsert acc name (getFieldDefaultValue (lookupProp props name))) []
  props.foldl
    (fun acc q =>
      if acc.any (fun r => r.1 == q.1) then acc
      else acc ++ [(q.1, getFieldDefaultValue q.2)]) inst

/-- State of `RateLimiter` (lines 24-33). `lockHeld` models whether the
object's non-reentrant `asyncio.Lock` is currently held. -/
structure RateLimiter where
  calls_per_minute : ℕ
  calls_per_day : ℕ
  minute_calls : List ℚ
  day_calls : List ℚ
  daily_quota_exhausted : Bool
  lockHeld : Bool
deriving DecidableEq

/-- The global `_global_rate_limiter = RateLimiter()` with the constructor
defaults (10 calls/minute, 50 calls/day), fresh at process start. -/
def freshRateLimiter : RateLimiter :=
  { calls_per_minute := 10
    calls_per_day := 50
    minute_calls := []
    day_calls := []
    daily_quota_exhausted := false
    lockHeld := false }

/-- The exceptions `wait_if_needed` can raise: the pre-lock fail-fast raise,
the day-window-full raise, and the `IndexError` that `self.minute_calls[0]`
raises when the pruned minute window is empty yet "full"
(only possible when `calls_per_minute = 0`). -/
inductive RLError : Type where
  | dailyAlreadyExhausted : RLError
  | dailyQuotaExceeded : RLError
  | indexError : RLError
deriving DecidableEq

/-- The tail of `wait_if_needed` after the minute-window check (lines 56-64):
day-window check, then recording of the call in both windows. `mc`/`dc` are
the pruned windows already assigned to the object. The lock is released on
both the raise and the normal return. -/
def dayPhase (st : RateLimiter) (mc dc : List ℚ) (now : ℚ) :
    Option (Except RLError Unit × RateLimiter) :=
  if st.calls_per_day ≤ dc.length then
    some (Except.error RLError.dailyQuotaExceeded,
      { st with minute_calls := mc, day_calls := dc,
                daily_quota_exhausted := true, lockHeld := false })
  else
    some (Except.ok (),
      { st with minute_calls := mc ++ [now], day_calls := dc ++ [now], lockHeld := false })

/-- Embeds `RateLimiter.wait_if_needed` (lines 35-64). The fail-fast check
precedes the lock acquisition; acquiring the already-held non-reentrant lock
never completes (`none`); `asyncio.sleep(wait_time)` advances the clock by
`wait_time` and the method then re-invokes itself while still holding the
lock, exactly as the source does. `none` for every fuel means the coroutine
never completes. -/
def waitIfNeeded : ℕ → RateLimiter → ℚ → Option (Except RLError Unit × RateLimiter)
  | 0, _, _ => none
  | fuel + 1, st, now =>
    if st.daily_quota_exhausted then
      some (Except.error RLError.dailyAlreadyExhausted, st)
    else if st.lockHeld then none
    else
      let mc := st.minute_calls.filter (fun t => now - t < 60)
      let dc := st.day_calls.filter (fun t => now - t < 86400)
      if st.calls_per_minute ≤ mc.length then
        match mc with
        | [] =>
          some (Except.error RLError.indexError,
            { st with minute_calls := mc, day_calls := dc, lockHeld := false })
        | t0 :: _ =>
          let waitTime := 60 - (now - t0)
          if 0 < waitTime then
            waitIfNeeded fuel
              { st with minute_calls := mc, day_calls := dc, lockHeld := true }
              (now + waitTime)
          else dayPhase st mc dc now
      else dayPhase st mc dc now

/-- `RateLimiter.mark_quota_exhausted` (lines 66-68). -/
def markQuotaExhausted (st : RateLimiter) : RateLimiter :=
  { st with daily_quota_exhausted := true }

/-- `parlant.core.nlp.generation_info.UsageInfo` as constructed here. -/
structure UsageInfo where
  input_tokens : ℕ
  output_tokens : ℕ
deriving DecidableEq

/-- `parlant.core.nlp.generation_info.GenerationInfo` as constructed here. -/
structure GenerationInfo where
  schema_name : String
  model : String
  duration : ℚ
  usage : UsageInfo
deriving DecidableEq

/-- `p.SchematicGenerationResult`: content plus generation metadata. -/
structure GenResult (α : Type) where
  content : α
  info : GenerationInfo

/-- What one loop iteration of `_generate_with_retry` observes from
`wait_if_needed` plus `_generate_once`: a successful result, a
`ResourceExhausted` whose lowercased message does or does not contain
`"quota"` and `"day"`, or any other exception. -/
inductive Outcome (α : Type) where
  | ok (result : GenResult α) : Outcome α
  | resourceExhausted (hasQuota hasDay : Bool) : Outcome α
  | otherError : Outcome α

def Outcome.isSuccess {α : Type} : Outcome α → Bool
  | .ok _ => true
  | _ => false

/-- Observable trace of one `_generate_with_retry` call: the returned value
(`Except.error ()` is the `Complete fallback failure` raise), the sequence of
backoff sleeps performed, the number of loop iterations executed, and whether
`mark_quota_exhausted` was invoked on the global rate limiter. -/
structure RetryTrace (α : Type) where
  result : Except Unit (GenResult α)
  delays : List ℚ
  attemptsMade : ℕ
  markedExhausted : Bool

/-- The `for attempt in range(max_retries)` loop of `_generate_with_retry`
(lines 106-164). `fuel` counts the remaining iterations
(`maxRetries - attempt`); running out of fuel is the loop falling through to
the final fallback at line 164. -/
def retryLoop {α : Type} (outcomes : ℕ → Outcome α) (fallback : Except Unit (GenResult α))
    (baseDelay : ℚ) (maxRetries : ℕ) :
    ℕ → ℕ → List ℚ → Bool → RetryTrace α
  | attempt, 0, delays, marked => ⟨fallback, delays, attempt, marked⟩
  | attempt, fuel + 1, delays, marked =>
    match outcomes attempt with
    | .ok r => ⟨Except.ok r, delays, attempt + 1, marked⟩
    | .resourceExhausted hasQuota hasDay =>
      if hasQuota then
        if hasDay then ⟨fallback, delays, attempt + 1, marked || (hasQuota && hasDay)⟩
        else if attempt < maxRetries - 1 then
          retryLoop outcomes fallback baseDelay maxRetries (attempt + 1) fuel
            (delays ++ [baseDelay * 2 ^ attempt]) (marked || (hasQuota && hasDay))
        else ⟨fallback, delays, attempt + 1, marked || (hasQuota && hasDay)⟩
      else ⟨fallback, delays, attempt + 1, marked || (hasQuota && hasDay)⟩
    | .otherError =>
      if attempt < maxRetries - 1 then
        retryLoop outcomes fallback baseDelay maxRetries (attempt + 1) fuel
          (delays ++ [baseDelay * 2 ^ attempt]) marked
      else ⟨fallback, delays, attempt + 1, marked⟩

/-- The `GenerationInfo` built by `_create_fallback_response`
(lines 248-258 and 295-301): model name suffixed with `_fallback`,
zero duration, zero usage. -/
def fallbackGenerationInfo (modelName schemaName : String) : GenerationInfo :=
  { schema_name := schemaName
    model := modelName ++ "_fallback"
    duration := 0
    usage := { input_tokens := 0, output_tokens := 0 } }

/-- `_create_fallback_response` (lines 215-311). `validatePrimary` abstracts
whether pydantic's `model_validate` accepts the synthesized instance (pydantic
is outside this repository); `minimalSynth` abstracts the result of the
`model_fields`-based minimal path, `none` when it too fails, in which case
the `Complete fallback failure` exception propagates (`Except.error ()`). -/
def createFallbackResponse (modelName schemaName : String) (required : List String)
    (props : List (String × FieldInfo)) (validatePrimary : Bool)
    (minimalSynth : Option JsonVal) : Except Unit (GenResult JsonVal) :=
  if validatePrimary then
    Except.ok { content := .obj (createFallbackInstance required props),
                info := fallbackGenerationInfo modelName schemaName }
  else
    match minimalSynth with
    | some v => Except.ok { content := v, info := fallbackGenerationInfo modelName schemaName }
    | none => Except.error ()

/-- `SimpleGeminiGenerator.generate` = `_generate_with_retry` with
`max_retries = 3` and `base_delay = 1.0` (lines 88-102). -/
def generateWithRetry (modelName schemaName : String) (required : List String)
    (props : List (String × FieldInfo)) (outcomes : ℕ → Outcome JsonVal)
    (validatePrimary : Bool) (minimalSynth : Option JsonVal) : RetryTrace JsonVal :=
  retryLoop outcomes
    (createFallbackResponse modelName schemaName required props validatePrimary minimalSynth)
    1 3 0 3 [] false

/-- The dummy vector `[0.1] * 768` substituted per failed embedding item. -/
def fillerVector : List ℚ := List.replicate 768 (1 / 10)

/-- The per-text loop of `SimpleGeminiEmbedder.embed` (lines 465-489):
each iteration awaits the global rate limiter, then the remote call;
any exception from either yields the filler vector for that item.
`apiResults idx = none` models `genai.embed_content` raising for item `idx`.
A `waitIfNeeded` that never completes makes the whole batch never complete
(`none`). -/
def embedLoop (apiResults : ℕ → Option (List ℚ)) (fuel : ℕ) :
    List String → RateLimiter → ℚ → ℕ → List (List ℚ) →
    Option (List (List ℚ) × RateLimiter)
  | [], st, _, _, acc => some (acc, st)
  | _text :: rest, st, now, idx, acc =>
    match waitIfNeeded fuel st now with
    | none => none
    | some (Except.error _, st') =>
      embedLoop apiResults fuel rest st' now (idx + 1) (acc ++ [fillerVector])
    | some (Except.ok _, st') =>
      match apiResults idx with
      | some v => embedLoop apiResults fuel rest st' now (idx + 1) (acc ++ [v])
      | none => embedLoop apiResults fuel rest st' now (idx + 1) (acc ++ [fillerVector])

/-- `SimpleGeminiEmbedder.embed` entry point: loop over the texts starting
from the current global rate-limiter state with an empty vector list. -/
def embed (apiResults : ℕ → Option (List ℚ)) (fuel : ℕ) (texts : List String)
    (st : RateLimiter) (now : ℚ) : Option (List (List ℚ) × RateLimiter) :=
  embedLoop apiResults fuel texts st now 0 []

/-- `SimpleGeminiEmbedder.dimensions` (lines 506-508). -/
def embedderDimensions : ℕ := 768

/-- `p.ModerationCheck`. -/
structure ModerationCheck where
  flagged : Bool
  tags : List String
deriving DecidableEq

/-- `SimpleGeminiModeration.check` (lines 513-515): the body is a single
`return p.ModerationCheck(flagged=False, tags=[])`; it takes no remote-call
outcome parameter because the source performs no remote call. -/
def moderationCheck (_content : String) : ModerationCheck :=
  { flagged := false, tags := [] }

/-- C2's concrete field schema: declares `type: string`, an enum, and an
explicit default `"hello"`. -/
def c2Field : FieldInfo :=
  .mk (some "string") none (some [.str "first_enum_value"]) none (some (.str "hello"))

/-- The global rate limiter's state right after ten calls at time 0 from a
fresh process: both windows hold ten timestamps `0`, the flag is unset, the
lock is free. -/
def fullMinuteState : RateLimiter :=
  { calls_per_minute := 10
    calls_per_day := 50
    minute_calls := [0, 0, 0, 0, 0, 0, 0, 0, 0, 0]
    day_calls := [0, 0, 0, 0, 0, 0, 0, 0, 0, 0]
    daily_quota_exhausted := false
    lockHeld := false }

/-- `fullMinuteState` one call earlier: nine timestamps in each window. -/
def nineCallState : RateLimiter :=
  { calls_per_minute := 10
    calls_per_day := 50
    minute_calls := [0, 0, 0, 0, 0, 0, 0, 0, 0]
    day_calls := [0, 0, 0, 0, 0, 0, 0, 0, 0]
    daily_quota_exhausted := false
    lockHeld := false }

/-- Whether the `type` keyword is one of the six kinds the source's
type-based branch recognizes. -/
def isKnownType (t : Option String) : Bool :=
  t == some "array" || t == some "boolean" || t == some "integer" ||
    t == some "number" || t == some "object" || t == some "string"

section Lemmas

/-! ### Helper lemmas on dict bookkeeping -/

theorem any_key_eq_true {β : Type} (d : List (String × β)) (k : String) :
    d.any (fun q => q.1 == k) = true ↔ k ∈ d.map Prod.fst := by
  simp only [List.any_eq_true, List.mem_map, beq_iff_eq]

theorem any_key_eq_false {β : Type} (d : List (String × β)) (k : String)
    (h : k ∉ d.map Prod.fst) : d.any (fun q => q.1 == k) = false := by
  cases hb : d.any (fun q => q.1 == k) with
  | true => exact absurd ((any_key_eq_true d k).mp hb) h
  | false => rfl

theorem mem_keys_dictInsert (d : List (String × JsonVal)) (k s : String) (v : JsonVal) :
    s ∈ (dictInsert d k v).map Prod.fst ↔ s ∈ d.map Prod.fst ∨ s = k := by
  unfold dictInsert
  by_cases h : d.any (fun q => q.1 == k) = true
  · rw [if_pos h]
    have hk : k ∈ d.map Prod.fst := (any_key_eq_true d k).mp h
    have hmap : (d.map (fun q => if q.1 == k then (k, v) else q)).map Prod.fst
        = d.map Prod.fst := by
      rw [List.map_map]
      apply List.map_congr_left
      intro q _hq
      by_cases hqk : (q.1 == k) = true
      · have hq1 : q.1 = k := beq_iff_eq.mp hqk
        simp [Function.comp, hqk, hq1]
      · simp [Function.comp, hqk]
    rw [hmap]
    constructor
    · exact Or.inl
    · rintro (hs | rfl)
      · exact hs
      · exact hk
  · rw [if_neg h]
    simp [List.map_append]

theorem dictInsert_not_mem (d : List (String × JsonVal)) (k : String) (v : JsonVal)
    (h : k ∉ d.map Prod.fst) : dictInsert d k v = d ++ [(k, v)] := by
  unfold dictInsert
  rw [if_neg (by rw [any_key_eq_false d k h]; exact Bool.false_ne_true)]

theorem mem_keys_foldl_dictInsert (g : String → JsonVal) (names : List String) :
    ∀ (acc : List (String × JsonVal)) (s : String),
      s ∈ names ∨ s ∈ acc.map Prod.fst →
      s ∈ (names.foldl (fun a n => dictInsert a n (g n)) acc).map Prod.fst := by
  induction names with
  | nil =>
    intro acc s h
    rcases h with h | h
    · cases h
    · simpa using h
  | cons n names ih =>
    intro acc s h
    rw [List.foldl_cons]
    apply ih
    rcases h with h | h
    · rcases List.mem_cons.mp h with rfl | h2
      · exact Or.inr ((mem_keys_dictInsert acc s s (g s)).mpr (Or.inr rfl))
      · exact Or.inl h2
    · exact Or.inr ((mem_keys_dictInsert acc n s (g n)).mpr (Or.inl h))

theorem foldl_dictInsert_append (g : String → JsonVal) (names : List String) :
    ∀ (acc : List (String × JsonVal)), names.Nodup →
      (∀ n ∈ names, n ∉ acc.map Prod.fst) →
      names.foldl (fun a n => dictInsert a n (g n)) acc
        = acc ++ names.map (fun n => (n, g n)) := by
  induction names with
  | nil => intro acc _ _; simp
  | cons n names ih =>
    intro acc hnd hfresh
    rw [List.foldl_cons, dictInsert_not_mem acc n (g n) (hfresh n (List.mem_cons_self n names))]
    have hfresh2 : ∀ m ∈ names, m ∉ (acc ++ [(n, g n)]).map Prod.fst := by
      intro m hm
      rw [List.map_append, List.mem_append]
      rintro (hin | hin)
      · exact hfresh m (List.mem_cons_of_mem n hm) hin
      · have : m = n := by simpa using hin
        exact (List.nodup_cons.mp hnd).1 (this ▸ hm)
    rw [ih (acc ++ [(n, g n)]) (List.nodup_cons.mp hnd).2 hfresh2]
    simp

theorem lookupProp_head (n : String) (fi : FieldInfo) (rest : List (String × FieldInfo)) :
    lookupProp ((n, fi) :: rest) n = fi := by
  unfold lookupProp
  rw [List.find?_cons_of_pos _ (by simp)]

theorem lookupProp_tail (q : String × FieldInfo) (rest : List (String × FieldInfo))
    (n : String) (h : q.1 ≠ n) : lookupProp (q :: rest) n = lookupProp rest n := by
  unfold lookupProp
  rw [List.find?_cons_of_neg _ (by simpa using h)]

theorem map_lookup_eq (props : List (String × FieldInfo))
    (hnd : (props.map Prod.fst).Nodup) :
    (props.map Prod.fst).map (fun n => (n, getFieldDefaultValue (lookupProp props n)))
      = props.map (fun q => (q.1, getFieldDefaultValue q.2)) := by
  induction props with
  | nil => rfl
  | cons q rest ih =>
    rw [List.map_cons, List.map_cons, List.map_cons]
    have hnotin : q.1 ∉ rest.map Prod.fst := by
      rw [List.map_cons] at hnd
      exact (List.nodup_cons.mp hnd).1
    have hq : lookupProp (q :: rest) q.1 = q.2 := by
      have : ((q.1, q.2) : String × FieldInfo) = q := rfl
      rw [← this]
      exact lookupProp_head q.1 q.2 rest
    rw [hq]
    have hcongr : ∀ n ∈ rest.map Prod.fst,
        ((n, getFieldDefaultValue (lookupProp (q :: rest) n)) : String × JsonVal)
          = (n, getFieldDefaultValue (lookupProp rest n)) := by
      intro n hn
      rw [lookupProp_tail q rest n (fun h => hnotin (h ▸ hn))]
    rw [List.map_congr_left hcongr]
    rw [ih (by rw [List.map_cons] at hnd; exact (List.nodup_cons.mp hnd).2)]

theorem keys_foldl_optional_preserve (h : FieldInfo → JsonVal)
    (props : List (String × FieldInfo)) :
    ∀ (acc : List (String × JsonVal)) (s : String), s ∈ acc.map Prod.fst →
      s ∈ (props.foldl
        (fun acc q => if acc.any (fun r => r.1 == q.1) then acc
          else acc ++ [(q.1, h q.2)]) acc).map Prod.fst := by
  induction props with
  | nil => intro acc s hs; simpa using hs
  | cons q rest ih =>
    intro acc s hs
    rw [List.foldl_cons]
    apply ih
    by_cases hany : acc.any (fun r => r.1 == q.1) = true
    · rw [if_pos hany]; exact hs
    · rw [if_neg hany, List.map_append, List.mem_append]
      exact Or.inl hs

theorem keys_foldl_optional_cover (h : FieldInfo → JsonVal)
    (props : List (String × FieldInfo)) :
    ∀ (acc : List (String × JsonVal)) (n : String) (fi : FieldInfo),
      (n, fi) ∈ props →
      n ∈ (props.foldl
        (fun acc q => if acc.any (fun r => r.1 == q.1) then acc
          else acc ++ [(q.1, h q.2)]) acc).map Prod.fst := by
  induction props with
  | nil =>
    intro acc n fi hmem
    cases hmem
  | cons q rest ih =>
    intro acc n fi hmem
    rw [List.foldl_cons]
    rcases List.mem_cons.mp hmem with rfl | hmem2
    · apply keys_foldl_optional_preserve
      by_cases hany : acc.any (fun r => r.1 == n) = true
      · rw [if_pos hany]
        exact (any_key_eq_true acc n).mp hany
      · rw [if_neg hany, List.map_append, List.mem_append]
        exact Or.inr (by simp)
    · exact ih _ n fi hmem2

theorem foldl_optional_noop (h : FieldInfo → JsonVal)
    (props : List (String × FieldInfo)) :
    ∀ (acc : List (String × JsonVal)), (∀ q ∈ props, q.1 ∈ acc.map Prod.fst) →
      props.foldl
        (fun acc q => if acc.any (fun r => r.1 == q.1) then acc
          else acc ++ [(q.1, h q.2)]) acc = acc := by
  induction props with
  | nil => intro acc _; rfl
  | cons q rest ih =>
    intro acc hall
    rw [List.foldl_cons,
      if_pos ((any_key_eq_true acc q.1).mpr (hall q (List.mem_cons_self q rest)))]
    exact ih acc (fun r hr => hall r (List.mem_cons_of_mem q hr))

/-- First instance-building loop then second: on a schema whose properties
are exactly its (duplicate-free) required fields, the synthesized instance
is exactly one default per property, in order. -/
theorem createFallbackInstance_exact (props : List (String × FieldInfo))
    (hnd : (props.map Prod.fst).Nodup) :
    createFallbackInstance (props.map Prod.fst) props
      = props.map (fun q => (q.1, getFieldDefaultValue q.2)) := by
  unfold createFallbackInstance
  rw [foldl_dictInsert_append
    (fun name => getFieldDefaultValue (lookupProp props name))
    (props.map Prod.fst) [] hnd (by simp)]
  rw [List.nil_append, map_lookup_eq props hnd]
  apply foldl_optional_noop
  intro q hq
  have : (props.map fun q => (q.1, getFieldDefaultValue q.2)).map Prod.fst
      = props.map Prod.fst := by
    rw [List.map_map]
    rfl
  rw [this]
  exact List.mem_map.mpr ⟨q, hq, rfl⟩

/-- Every required field and every declared property ends up populated. -/
theorem createFallbackInstance_total (required : List String)
    (props : List (String × FieldInfo)) (n : String) :
    (n ∈ required ∨ n ∈ props.map Prod.fst) →
    n ∈ (createFallbackInstance required props).map Prod.fst := by
  intro h
  unfold createFallbackInstance
  rcases h with h | h
  · apply keys_foldl_optional_preserve
    exact mem_keys_foldl_dictInsert _ required [] n (Or.inl h)
  · rcases List.mem_map.mp h with ⟨q, hq, rfl⟩
    exact keys_foldl_optional_cover _ props _ q.1 q.2 hq

/-! ### Helper lemmas on the retry loop -/

/-- The `Complete fallback failure` exception is the only way
`_generate_with_retry` can end in a raise: every terminal branch returns the
fallback value. -/
theorem retryLoop_error {α : Type} (outcomes : ℕ → Outcome α)
    (fallback : Except Unit (GenResult α)) (baseDelay : ℚ) (maxRetries : ℕ) :
    ∀ (fuel attempt : ℕ) (delays : List ℚ) (marked : Bool),
      (retryLoop outcomes fallback baseDelay maxRetries attempt fuel delays marked).result
        = Except.error () →
      fallback = Except.error () := by
  intro fuel
  induction fuel with
  | zero =>
    intro attempt delays marked h
    exact h
  | succ fuel ih =>
    intro attempt delays marked h
    unfold retryLoop at h
    split at h
    · exact absurd h (by simp)
    · split at h
      · split at h
        · exact h
        · split at h
          · exact ih (attempt + 1) _ _ h
          · exact h
      · exact h
    · split at h
      · exact ih (attempt + 1) _ _ h
      · exact h

/-- When no attempt succeeds, the returned value is exactly the fallback. -/
theorem retryLoop_no_success {α : Type} (outcomes : ℕ → Outcome α)
    (fallback : Except Unit (GenResult α)) (baseDelay : ℚ) (maxRetries : ℕ)
    (hfail : ∀ i, (outcomes i).isSuccess = false) :
    ∀ (fuel attempt : ℕ) (delays : List ℚ) (marked : Bool),
      (retryLoop outcomes fallback baseDelay maxRetries attempt fuel delays marked).result
        = fallback := by
  intro fuel
  induction fuel with
  | zero =>
    intro attempt delays marked
    rfl
  | succ fuel ih =>
    intro attempt delays marked
    unfold retryLoop
    split
    · rename_i r heq
      have := hfail attempt
      rw [heq] at this
      exact absurd this (by simp [Outcome.isSuccess])
    · split
      · split
        · rfl
        · split
          · exact ih (attempt + 1) _ _
          · rfl
      · rfl
    · split
      · exact ih (attempt + 1) _ _
      · rfl

/-! ### Helper lemmas on the rate limiter -/

/-- Acquiring the already-held non-reentrant lock never completes (unless the
fail-fast raise fires first). -/
theorem waitIfNeeded_locked (fuel : ℕ) (st : RateLimiter) (now : ℚ)
    (h1 : st.daily_quota_exhausted = false) (h2 : st.lockHeld = true) :
    waitIfNeeded fuel st now = none := by
  cases fuel with
  | zero => rfl
  | succ fuel => simp [waitIfNeeded, h1, h2]

/-- A call that finds the lock held can never return normally. -/
theorem waitIfNeeded_locked_no_ok (fuel : ℕ) (st : RateLimiter) (now : ℚ)
    (st' : RateLimiter) (h2 : st.lockHeld = true) :
    waitIfNeeded fuel st now ≠ some (Except.ok (), st') := by
  cases hex : st.daily_quota_exhausted with
  | true =>
    cases fuel with
    | zero => simp [waitIfNeeded]
    | succ fuel => simp [waitIfNeeded, hex]
  | false =>
    rw [waitIfNeeded_locked fuel st now hex h2]
    simp

/-- With the fail-fast check passed, the lock free, and the pruned minute
window below its limit, `wait_if_needed` proceeds directly to the day-window
phase. -/
theorem waitIfNeeded_step_direct (fuel : ℕ) (st : RateLimiter) (now : ℚ)
    (h1 : st.daily_quota_exhausted = false) (h2 : st.lockHeld = false)
    (h3 : ¬ st.calls_per_minute ≤ (st.minute_calls.filter (fun t => now - t < 60)).length) :
    waitIfNeeded (fuel + 1) st now
      = dayPhase st (st.minute_calls.filter (fun t => now - t < 60))
          (st.day_calls.filter (fun t => now - t < 86400)) now := by
  simp [waitIfNeeded, h1, h2, h3]

/-- With the flag already set, the call raises at once, untouched state. -/
theorem waitIfNeeded_exhausted (fuel : ℕ) (st : RateLimiter) (now : ℚ)
    (h : st.daily_quota_exhausted = true) :
    waitIfNeeded (fuel + 1) st now
      = some (Except.error RLError.dailyAlreadyExhausted, st) := by
  simp [waitIfNeeded, h]

/-- Finding the day window full sets the flag and raises. -/
theorem waitIfNeeded_day_full (fuel : ℕ) (st : RateLimiter) (now : ℚ)
    (h1 : st.daily_quota_exhausted = false) (h2 : st.lockHeld = false)
    (h3 : ¬ st.calls_per_minute ≤ (st.minute_calls.filter (fun t => now - t < 60)).length)
    (h4 : st.calls_per_day ≤ (st.day_calls.filter (fun t => now - t < 86400)).length) :
    waitIfNeeded (fuel + 1) st now
      = some (Except.error RLError.dailyQuotaExceeded,
          { st with
            minute_calls := st.minute_calls.filter (fun t => now - t < 60)
            day_calls := st.day_calls.filter (fun t => now - t < 86400)
            daily_quota_exhausted := true
            lockHeld := false }) := by
  rw [waitIfNeeded_step_direct fuel st now h1 h2 h3]
  unfold dayPhase
  rw [if_pos h4]

/-- Normal return happens only on the direct path: the fail-fast check
passes, the lock is free, both pruned windows are strictly below their
limits, and exactly one timestamp (`now`) is appended to each window. -/
theorem waitIfNeeded_ok (fuel : ℕ) (st st' : RateLimiter) (now : ℚ)
    (h : waitIfNeeded fuel st now = some (Except.ok (), st')) :
    st.daily_quota_exhausted = false ∧ st.lockHeld = false ∧
    (st.minute_calls.filter (fun t => now - t < 60)).length < st.calls_per_minute ∧
    (st.day_calls.filter (fun t => now - t < 86400)).length < st.calls_per_day ∧
    st' = { st with
      minute_calls := st.minute_calls.filter (fun t => now - t < 60) ++ [now]
      day_calls := st.day_calls.filter (fun t => now - t < 86400) ++ [now]
      lockHeld := false } := by
  cases fuel with
  | zero => exact absurd h (by simp [waitIfNeeded])
  | succ fuel =>
    unfold waitIfNeeded at h
    split at h
    · exact absurd h (by simp)
    · split at h
      · exact absurd h (by simp)
      · rename_i hex hlk
        rw [Bool.not_eq_true] at hex hlk
        dsimp only at h
        split at h
        · split at h
          · exact absurd h (by simp)
          · rename_i hfull _ t0 rest hmc
            split at h
            · exact absurd h (waitIfNeeded_locked_no_ok fuel _ _ st' rfl)
            · rename_i hwt
              exfalso
              have ht0 : t0 ∈ st.minute_calls.filter (fun t => now - t < 60) := by
                rw [hmc]
                exact List.mem_cons_self _ _
              have h60 : now - t0 < 60 := of_decide_eq_true (List.mem_filter.mp ht0).2
              exact hwt (by linarith)
        · rename_i hfull
          unfold dayPhase at h
          split at h
          · exact absurd h (by simp)
          · rename_i hday
            simp only [Option.some.injEq, Prod.mk.injEq, true_and] at h
            exact ⟨hex, hlk, Nat.lt_of_not_le hfull, Nat.lt_of_not_le hday, h.symm⟩

/-- With the pruned minute window full and a positive wait, the coroutine
sleeps (advancing the clock) and re-invokes itself with the lock still
held. -/
theorem waitIfNeeded_minute_full (fuel : ℕ) (st : RateLimiter) (now t0 : ℚ)
    (rest : List ℚ)
    (h1 : st.daily_quota_exhausted = false) (h2 : st.lockHeld = false)
    (hmc : st.minute_calls.filter (fun t => now - t < 60) = t0 :: rest)
    (hfull : st.calls_per_minute ≤ (t0 :: rest).length)
    (hwt : 0 < 60 - (now - t0)) :
    waitIfNeeded (fuel + 1) st now
      = waitIfNeeded fuel
          { st with
            minute_calls := t0 :: rest
            day_calls := st.day_calls.filter (fun t => now - t < 86400)
            lockHeld := true } (now + (60 - (now - t0))) := by
  simp only [waitIfNeeded, h1, h2, Bool.false_eq_true, if_false]
  rw [hmc, if_pos hfull]
  dsimp only
  rw [if_pos hwt]

/-- The 11th call at time 0: the minute window is full, so the coroutine
sleeps and then re-invokes `wait_if_needed` while still holding the
non-reentrant lock; the re-acquisition never completes, for any fuel. -/
theorem waitIfNeeded_full_minute_diverges :
    ∀ fuel : ℕ, waitIfNeeded fuel fullMinuteState 0 = none := by
  intro fuel
  cases fuel with
  | zero => rfl
  | succ fuel =>
    rw [waitIfNeeded_minute_full fuel fullMinuteState 0 0 [0, 0, 0, 0, 0, 0, 0, 0, 0]
      rfl rfl (by norm_num [fullMinuteState]) (by norm_num [fullMinuteState]) (by norm_num)]
    exact waitIfNeeded_locked fuel _ _ rfl rfl

/-- One iteration of the embedding loop whose rate-limiter wait never
completes makes the whole batch never complete. -/
theorem embedLoop_deadlock (apiResults : ℕ → Option (List ℚ)) (fuel : ℕ)
    (t : String) (rest : List String) (st : RateLimiter) (now : ℚ) (idx : ℕ)
    (acc : List (List ℚ)) (h : waitIfNeeded fuel st now = none) :
    embedLoop apiResults fuel (t :: rest) st now idx acc = none := by
  unfold embedLoop
  rw [h]

end Lemmas

section Claims

/-- C1: whatever errors the rate limiter, the remote call, or response
handling raise, `generate` never raises past the adapter boundary: when no
attempt succeeds the returned value is exactly the synthesized fallback,
whose metadata marks it as a fallback (model name suffixed `_fallback`,
zero input tokens, zero output tokens, zero duration); the only raise that
can cross the boundary (`Except.error ()`) is the failure of fallback
synthesis itself to produce a validated value (malformed schema). -/
theorem generate_never_raises_except_fallback_failure
    (modelName schemaName : String) (required : List String)
    (props : List (String × FieldInfo)) (outcomes : ℕ → Outcome JsonVal)
    (validatePrimary : Bool) (minimalSynth : Option JsonVal) :
    ((generateWithRetry modelName schemaName required props outcomes
        validatePrimary minimalSynth).result = Except.error () →
      validatePrimary = false ∧ minimalSynth = none) ∧
    ((∀ i, (outcomes i).isSuccess = false) →
      (generateWithRetry modelName schemaName required props outcomes
        validatePrimary minimalSynth).result
        = createFallbackResponse modelName schemaName required props
            validatePrimary minimalSynth) ∧
    (∀ r : GenResult JsonVal,
      createFallbackResponse modelName schemaName required props
        validatePrimary minimalSynth = Except.ok r →
      r.info.model = modelName ++ "_fallback" ∧
      r.info.usage.input_tokens = 0 ∧ r.info.usage.output_tokens = 0 ∧
      r.info.duration = 0) ∧
    (createFallbackResponse modelName schemaName required props
        validatePrimary minimalSynth = Except.error ()
      ↔ validatePrimary = false ∧ minimalSynth = none) := by
  refine ⟨?_, ?_, ?_, ?_⟩
  · intro h
    have hfb := retryLoop_error outcomes
      (createFallbackResponse modelName schemaName required props validatePrimary minimalSynth)
      1 3 3 0 [] false h
    cases validatePrimary with
    | true => exact absurd hfb (by simp [createFallbackResponse])
    | false =>
      cases minimalSynth with
      | none => exact ⟨rfl, rfl⟩
      | some v => exact absurd hfb (by simp [createFallbackResponse])
  · intro hfail
    exact retryLoop_no_success outcomes _ 1 3 hfail 3 0 [] false
  · intro r hr
    cases validatePrimary with
    | true =>
      simp only [createFallbackResponse, if_true, Except.ok.injEq] at hr
      rw [← hr]
      exact ⟨rfl, rfl, rfl, rfl⟩
    | false =>
      cases minimalSynth with
      | none => exact absurd hr (by simp [createFallbackResponse])
      | some v =>
        simp only [createFallbackResponse, Bool.false_eq_true, if_false,
          Except.ok.injEq] at hr
        rw [← hr]
        exact ⟨rfl, rfl, rfl, rfl⟩
  · cases validatePrimary with
    | true => simp [createFallbackResponse]
    | false =>
      cases minimalSynth with
      | none => simp [createFallbackResponse]
      | some v => simp [createFallbackResponse]

/-- Witness for C1: with a schema of one string field, the remote model
unreachable at every attempt, and pydantic accepting the synthesized
instance, the call returns the fallback value rather than raising. -/
theorem generate_never_raises_witness :
    (generateWithRetry "gemini-2.0-flash" "TestSchema" ["message"]
        [("message", primField "string")] (fun _ => Outcome.otherError)
        true none).result
      = createFallbackResponse "gemini-2.0-flash" "TestSchema" ["message"]
          [("message", primField "string")] true none :=
  (generate_never_raises_except_fallback_failure "gemini-2.0-flash" "TestSchema"
    ["message"] [("message", primField "string")] (fun _ => Outcome.otherError)
    true none).2.1 (fun _ => rfl)

/-- C2 counterexample: a field schema declaring `type: string`, an enum, and
an explicit default `"hello"`. The claimed precedence (explicit default
first) demands `"hello"`; the source's `_get_field_default_value` consults
the type keyword first and never reads `default`, yielding the sentinel. -/
theorem field_default_ignores_explicit_default :
    getFieldDefaultValue c2Field = JsonVal.str "unavailable" ∧
    specFieldDefaultValue c2Field = JsonVal.str "hello" ∧
    getFieldDefaultValue c2Field ≠ specFieldDefaultValue c2Field := by
  refine ⟨rfl, rfl, ?_⟩
  intro h
  have h1 : JsonVal.str "unavailable" = JsonVal.str "hello" := h
  injection h1 with h2
  exact absurd h2 (by simp)

/-- C2 (amended): the synthesizer picks a field default by checking, in
order, the type keyword (array → `[]`, boolean → `false`, integer → `0`,
number → `0.0`, object → `{}`, string → the sentinel), then the first
non-null variant of `anyOf` (recursively; `null` when every variant is
null-typed), then the first enum value, then `{}` for `$ref`, then the
sentinel; the explicit schema `default` is never consulted. -/
theorem field_default_precedence (t : Option String) (a : Option (List FieldInfo))
    (e : Option (List JsonVal)) (r : Option String) (d d' : Option JsonVal)
    (options : List FieldInfo) (v : JsonVal) (vs : List JsonVal) (s : String) :
    (getFieldDefaultValue (.mk t a e r d) = getFieldDefaultValue (.mk t a e r d')) ∧
    (getFieldDefaultValue (.mk (some "array") a e r d) = .arr []) ∧
    (getFieldDefaultValue (.mk (some "boolean") a e r d) = .bool false) ∧
    (getFieldDefaultValue (.mk (some "integer") a e r d) = .int 0) ∧
    (getFieldDefaultValue (.mk (some "number") a e r d) = .num 0) ∧
    (getFieldDefaultValue (.mk (some "object") a e r d) = .obj []) ∧
    (getFieldDefaultValue (.mk (some "string") a e r d) = .str "unavailable") ∧
    (isKnownType t = false →
      getFieldDefaultValue (.mk t (some options) e r d) = firstNonNullDefault options) ∧
    (isKnownType t = false →
      getFieldDefaultValue (.mk t none (some (v :: vs)) r d) = v) ∧
    (isKnownType t = false → e = none ∨ e = some [] →
      getFieldDefaultValue (.mk t none e (some s) d) = .obj []) ∧
    (isKnownType t = false → e = none ∨ e = some [] →
      getFieldDefaultValue (.mk t none e none d) = .str "unavailable") ∧
    (firstNonNullDefault ([] : List FieldInfo) = .null) ∧
    (∀ fi : FieldInfo, fi.type = some "null" →
      firstNonNullDefault (fi :: options) = firstNonNullDefault options) ∧
    (∀ fi : FieldInfo, ¬ fi.type = some "null" →
      firstNonNullDefault (fi :: options) = getFieldDefaultValue fi) := by
  refine ⟨rfl, rfl, rfl, rfl, rfl, rfl, rfl, ?_, ?_, ?_, ?_, rfl, ?_, ?_⟩
  · intro hk
    simp only [isKnownType, Bool.or_eq_false_iff, beq_eq_false_iff_ne] at hk
    obtain ⟨⟨⟨⟨⟨h1, h2⟩, h3⟩, h4⟩, h5⟩, h6⟩ := hk
    simp only [getFieldDefaultValue, if_neg h1, if_neg h2, if_neg h3, if_neg h4,
      if_neg h5, if_neg h6]
  · intro hk
    simp only [isKnownType, Bool.or_eq_false_iff, beq_eq_false_iff_ne] at hk
    obtain ⟨⟨⟨⟨⟨h1, h2⟩, h3⟩, h4⟩, h5⟩, h6⟩ := hk
    simp only [getFieldDefaultValue, if_neg h1, if_neg h2, if_neg h3, if_neg h4,
      if_neg h5, if_neg h6]
  · intro hk he
    simp only [isKnownType, Bool.or_eq_false_iff, beq_eq_false_iff_ne] at hk
    obtain ⟨⟨⟨⟨⟨h1, h2⟩, h3⟩, h4⟩, h5⟩, h6⟩ := hk
    rcases he with rfl | rfl <;>
      simp only [getFieldDefaultValue, if_neg h1, if_neg h2, if_neg h3, if_neg h4,
        if_neg h5, if_neg h6]
  · intro hk he
    simp only [isKnownType, Bool.or_eq_false_iff, beq_eq_false_iff_ne] at hk
    obtain ⟨⟨⟨⟨⟨h1, h2⟩, h3⟩, h4⟩, h5⟩, h6⟩ := hk
    rcases he with rfl | rfl <;>
      simp only [getFieldDefaultValue, if_neg h1, if_neg h2, if_neg h3, if_neg h4,
        if_neg h5, if_neg h6]
  · intro fi hnull
    simp only [firstNonNullDefault, if_pos hnull]
  · intro fi hnull
    simp only [firstNonNullDefault, if_neg hnull]

/-- Witness for C2's amended claim: an unknown type keyword with a union
falls through to the first non-null variant. -/
theorem field_default_precedence_witness :
    getFieldDefaultValue
        (.mk (some "weird") (some [primField "integer"]) none none none)
      = firstNonNullDefault [primField "integer"] :=
  (field_default_precedence (some "weird") none none none none none
    [primField "integer"] JsonVal.null [] "s").2.2.2.2.2.2.2.1 rfl

/-- C3: fallback synthesis is a total function of the schema (hence
deterministic): every required and every declared optional field is
populated; on a schema whose properties are exactly its N required fields
the result has exactly those N fields, in order, with type-correct defaults
(integer → 0, number → 0.0, string → the sentinel, boolean → false,
array → `[]`, object → `{}`); and generating against the schema
`{message: string, confidence: number}` with the remote API unreachable at
every attempt yields the sentinel message and confidence 0.0 with
fallback-marked metadata. -/
theorem fallback_synthesis_total_exact
    (required : List String) (props : List (String × FieldInfo)) (n : String)
    (hnd : (props.map Prod.fst).Nodup) :
    (n ∈ required ∨ n ∈ props.map Prod.fst →
      n ∈ (createFallbackInstance required props).map Prod.fst) ∧
    (createFallbackInstance (props.map Prod.fst) props
      = props.map (fun q => (q.1, getFieldDefaultValue q.2))) ∧
    (getFieldDefaultValue (primField "integer") = .int 0 ∧
      getFieldDefaultValue (primField "number") = .num 0 ∧
      getFieldDefaultValue (primField "string") = .str "unavailable" ∧
      getFieldDefaultValue (primField "boolean") = .bool false ∧
      getFieldDefaultValue (primField "array") = .arr [] ∧
      getFieldDefaultValue (primField "object") = .obj []) ∧
    (createFallbackInstance ["message", "confidence"]
        [("message", primField "string"), ("confidence", primField "number")]
      = [("message", .str "unavailable"), ("confidence", .num 0)]) ∧
    ((generateWithRetry "gemini-2.0-flash" "ChatSchema" ["message", "confidence"]
        [("message", primField "string"), ("confidence", primField "number")]
        (fun _ => Outcome.otherError) true none).result
      = Except.ok
          { content := JsonVal.obj
              [("message", JsonVal.str "unavailable"), ("confidence", JsonVal.num 0)]
            info := { schema_name := "ChatSchema"
                      model := "gemini-2.0-flash_fallback"
                      duration := 0
                      usage := { input_tokens := 0, output_tokens := 0 } } }) := by
  refine ⟨createFallbackInstance_total required props n, ?_, ⟨rfl, rfl, rfl, rfl, rfl, rfl⟩,
    rfl, ?_⟩
  · exact createFallbackInstance_exact props hnd
  · exact (retryLoop_no_success (fun _ => Outcome.otherError) _ 1 3
      (fun _ => rfl) 3 0 [] false).trans rfl

/-- Witness for C3: on the two-field schema, the field `message` is
populated, and the exactness equation holds. -/
theorem fallback_synthesis_total_exact_witness :
    ("message" : String) ∈ (createFallbackInstance ["message", "confidence"]
      [("message", primField "string"), ("confidence", primField "number")]).map
        Prod.fst :=
  (fallback_synthesis_total_exact ["message", "confidence"]
    [("message", primField "string"), ("confidence", primField "number")]
    "message" (by simp)).1 (Or.inl (List.mem_cons_self _ _))

/-- C4: once the per-day window is found full, `wait_if_needed` sets the
process-wide flag and raises with the flag set; with the flag set, this and
every subsequent call fails fast, immediately (independently of fuel, no
clock advance, state untouched), so no remote call is attempted; the flag is
never reset by any execution of `wait_if_needed`; `mark_quota_exhausted`
sets the flag; and a remote error whose message mentions both quota and day
causes `_generate_with_retry` to invoke `mark_quota_exhausted`. -/
theorem daily_quota_fail_fast
    (st st' : RateLimiter) (now : ℚ) (fuel : ℕ) (res : Except RLError Unit)
    (outcomes : ℕ → Outcome JsonVal) (modelName schemaName : String)
    (required : List String) (props : List (String × FieldInfo))
    (validatePrimary : Bool) (minimalSynth : Option JsonVal) :
    (st.daily_quota_exhausted = true →
      waitIfNeeded (fuel + 1) st now
        = some (Except.error RLError.dailyAlreadyExhausted, st)) ∧
    (st.daily_quota_exhausted = false → st.lockHeld = false →
      ¬ st.calls_per_minute ≤ (st.minute_calls.filter (fun t => now - t < 60)).length →
      st.calls_per_day ≤ (st.day_calls.filter (fun t => now - t < 86400)).length →
      waitIfNeeded (fuel + 1) st now
        = some (Except.error RLError.dailyQuotaExceeded,
            { st with
              minute_calls := st.minute_calls.filter (fun t => now - t < 60)
              day_calls := st.day_calls.filter (fun t => now - t < 86400)
              daily_quota_exhausted := true
              lockHeld := false })) ∧
    (waitIfNeeded fuel st now = some (res, st') → st.daily_quota_exhausted = true →
      st' = st ∧ st'.daily_quota_exhausted = true) ∧
    ((markQuotaExhausted st).daily_quota_exhausted = true) ∧
    (outcomes 0 = Outcome.resourceExhausted true true →
      (generateWithRetry modelName schemaName required props outcomes
        validatePrimary minimalSynth).markedExhausted = true) := by
  refine ⟨waitIfNeeded_exhausted fuel st now, waitIfNeeded_day_full fuel st now, ?_, rfl, ?_⟩
  · intro h hex
    cases fuel with
    | zero => exact absurd h (by simp [waitIfNeeded])
    | succ fuel =>
      rw [waitIfNeeded_exhausted fuel st now hex] at h
      simp only [Option.some.injEq, Prod.mk.injEq] at h
      exact ⟨h.2.symm, h.2.symm ▸ hex⟩
  · intro h0
    norm_num [generateWithRetry, retryLoop, h0]

/-- Witness for C4: with the flag already set (here by
`mark_quota_exhausted`), the very next call raises immediately with the
state untouched. -/
theorem daily_quota_fail_fast_witness :
    waitIfNeeded 1 (markQuotaExhausted freshRateLimiter) 0
      = some (Except.error RLError.dailyAlreadyExhausted,
          markQuotaExhausted freshRateLimiter) :=
  (daily_quota_fail_fast (markQuotaExhausted freshRateLimiter) freshRateLimiter
    0 0 (Except.ok ()) (fun _ => Outcome.otherError) "m" "S" [] [] true none).1 rfl

/-- C5 counterexample: with every attempt raising a (non-daily) quota
error, the realized backoff delays are 1s and 2s over the 3 attempts —
never 4s, since no sleep follows the final attempt — refuting the claimed
delay schedule (1s, 2s, 4s); moreover a `ResourceExhausted` whose message
does not mention quota is not retried at all: one attempt, no delay. -/
theorem retry_backoff_counterexample :
    (generateWithRetry "gemini-2.0-flash" "S" [] []
        (fun _ => Outcome.resourceExhausted true false) true none).delays = [1, 2] ∧
    (generateWithRetry "gemini-2.0-flash" "S" [] []
        (fun _ => Outcome.resourceExhausted true false) true none).delays ≠ [1, 2, 4] ∧
    (generateWithRetry "gemini-2.0-flash" "S" [] []
        (fun _ => Outcome.resourceExhausted true false) true none).attemptsMade = 3 ∧
    (generateWithRetry "gemini-2.0-flash" "S" [] []
        (fun _ => Outcome.resourceExhausted false false) true none).attemptsMade = 1 ∧
    (generateWithRetry "gemini-2.0-flash" "S" [] []
        (fun _ => Outcome.resourceExhausted false false) true none).delays = [] := by
  have h1 : (generateWithRetry "gemini-2.0-flash" "S" [] []
      (fun _ => Outcome.resourceExhausted true false) true none).delays = [1, 2] := by
    norm_num [generateWithRetry, retryLoop]
  refine ⟨h1, ?_, ?_, ?_, ?_⟩
  · rw [h1]
    intro h
    exact absurd (congrArg List.length h) (by simp)
  · norm_num [generateWithRetry, retryLoop]
  · norm_num [generateWithRetry, retryLoop]
  · norm_num [generateWithRetry, retryLoop]

/-- C5 (amended): on quota-related (non-daily) errors the call retries up
to the fixed bound of 3 total attempts, sleeping `base · 2^attempt` before
each retry — realized delays 1s then 2s, with no sleep after the final
attempt — and then falls back; a daily-quota error short-circuits to the
fallback immediately without retrying (marking the limiter exhausted); a
`ResourceExhausted` not mentioning quota falls back immediately without
retrying; any other error is retried with the same 1s, 2s backoff up to
the same bound and then falls back. -/
theorem retry_backoff_policy (outcomes : ℕ → Outcome JsonVal)
    (modelName schemaName : String) (required : List String)
    (props : List (String × FieldInfo)) (validatePrimary : Bool)
    (minimalSynth : Option JsonVal) :
    ((∀ i, outcomes i = Outcome.resourceExhausted true false) →
      (generateWithRetry modelName schemaName required props outcomes
          validatePrimary minimalSynth).delays = [1, 2] ∧
      (generateWithRetry modelName schemaName required props outcomes
          validatePrimary minimalSynth).attemptsMade = 3 ∧
      (generateWithRetry modelName schemaName required props outcomes
          validatePrimary minimalSynth).result
        = createFallbackResponse modelName schemaName required props
            validatePrimary minimalSynth) ∧
    (outcomes 0 = Outcome.resourceExhausted true true →
      (generateWithRetry modelName schemaName required props outcomes
          validatePrimary minimalSynth).delays = [] ∧
      (generateWithRetry modelName schemaName required props outcomes
          validatePrimary minimalSynth).attemptsMade = 1 ∧
      (generateWithRetry modelName schemaName required props outcomes
          validatePrimary minimalSynth).markedExhausted = true ∧
      (generateWithRetry modelName schemaName required props outcomes
          validatePrimary minimalSynth).result
        = createFallbackResponse modelName schemaName required props
            validatePrimary minimalSynth) ∧
    (outcomes 0 = Outcome.resourceExhausted false false →
      (generateWithRetry modelName schemaName required props outcomes
          validatePrimary minimalSynth).delays = [] ∧
      (generateWithRetry modelName schemaName required props outcomes
          validatePrimary minimalSynth).attemptsMade = 1 ∧
      (generateWithRetry modelName schemaName required props outcomes
          validatePrimary minimalSynth).result
        = createFallbackResponse modelName schemaName required props
            validatePrimary minimalSynth) ∧
    ((∀ i, outcomes i = Outcome.otherError) →
      (generateWithRetry modelName schemaName required props outcomes
          validatePrimary minimalSynth).delays = [1, 2] ∧
      (generateWithRetry modelName schemaName required props outcomes
          validatePrimary minimalSynth).attemptsMade = 3 ∧
      (generateWithRetry modelName schemaName required props outcomes
          validatePrimary minimalSynth).result
        = createFallbackResponse modelName schemaName required props
            validatePrimary minimalSynth) := by
  refine ⟨?_, ?_, ?_, ?_⟩
  · intro h
    have hfun : outcomes = fun _ => Outcome.resourceExhausted true false := funext h
    subst hfun
    refine ⟨?_, ?_, ?_⟩ <;> norm_num [generateWithRetry, retryLoop]
  · intro h0
    refine ⟨?_, ?_, ?_, ?_⟩ <;> norm_num [generateWithRetry, retryLoop, h0]
  · intro h0
    refine ⟨?_, ?_, ?_⟩ <;> norm_num [generateWithRetry, retryLoop, h0]
  · intro h
    have hfun : outcomes = fun _ => Outcome.otherError := funext h
    subst hfun
    refine ⟨?_, ?_, ?_⟩ <;> norm_num [generateWithRetry, retryLoop]

/-- Witness for C5's amended claim: a daily-quota error on the first
attempt ends the call after one attempt with no backoff sleep. -/
theorem retry_backoff_policy_witness :
    (generateWithRetry "gemini-2.0-flash" "S" [] []
        (fun _ => Outcome.resourceExhausted true true) true none).attemptsMade = 1 :=
  ((retry_backoff_policy (fun _ => Outcome.resourceExhausted true true)
    "gemini-2.0-flash" "S" [] [] true none).2.1 rfl).2.1

/-- C6 (code bug): calls up to the per-minute limit succeed immediately —
the 10th call from `nineCallState` returns at once, producing
`fullMinuteState` — but the 11th call never returns for any fuel: instead of
waiting out the window and re-checking, `wait_if_needed` re-invokes itself
while still holding the non-reentrant `asyncio.Lock`, so the re-acquisition
blocks forever. The claim's "the call eventually returns, recording the
call" is false on the code. -/
theorem per_minute_wait_never_returns :
    waitIfNeeded 1 nineCallState 0 = some (Except.ok (), fullMinuteState) ∧
    (∀ fuel : ℕ, waitIfNeeded fuel fullMinuteState 0 = none) := by
  constructor
  · norm_num [waitIfNeeded, dayPhase, nineCallState, fullMinuteState]
  · exact waitIfNeeded_full_minute_diverges

/-- C7 (code bug): a batch of 10 strings with every remote call failing
returns exactly 10 filler vectors of the declared dimension 768 — but a
batch of 11 strings issued at the same instant from a fresh process never
returns for any fuel: the 11th `wait_if_needed` self-deadlocks on the
non-reentrant lock, so `embed` does not return K vectors (or anything). -/
theorem embed_batch_never_returns :
    embed (fun _ => none) 1 (List.replicate 10 "text") freshRateLimiter 0
      = some (List.replicate 10 fillerVector, fullMinuteState) ∧
    fillerVector.length = embedderDimensions ∧
    (∀ fuel : ℕ,
      embed (fun _ => none) fuel (List.replicate 11 "text") freshRateLimiter 0 = none) := by
  refine ⟨?_, ?_, ?_⟩
  · norm_num [embed, embedLoop, waitIfNeeded, dayPhase, freshRateLimiter,
      fullMinuteState, List.replicate]
  · norm_num [fillerVector, embedderDimensions]
  · intro fuel
    cases fuel with
    | zero =>
      exact embedLoop_deadlock (fun _ => none) 0 "text" (List.replicate 10 "text")
        freshRateLimiter 0 0 [] rfl
    | succ f =>
      norm_num [embed, embedLoop, waitIfNeeded, dayPhase, freshRateLimiter,
        List.replicate, waitIfNeeded_locked]

/-- C8: `SimpleGeminiModeration.check` is a total constant function — it
cannot raise — and returns `flagged = false` with an empty tag list for
every input, hence in particular on remote failure (fail-open). -/
theorem moderation_fail_open (content : String) :
    (moderationCheck content).flagged = false ∧ (moderationCheck content).tags = [] :=
  ⟨rfl, rfl⟩

/-- C9: whenever `wait_if_needed` returns normally it has appended exactly
one timestamp (the current time) to each pruned window; at that point the
minute window holds only timestamps less than 60 seconds old with length at
most `calls_per_minute`, and the day window only timestamps less than 86400
seconds old with length at most `calls_per_day`. -/
theorem rate_limiter_window_invariant (fuel : ℕ) (st st' : RateLimiter) (now : ℚ)
    (h : waitIfNeeded fuel st now = some (Except.ok (), st')) :
    st'.minute_calls = st.minute_calls.filter (fun t => now - t < 60) ++ [now] ∧
    st'.day_calls = st.day_calls.filter (fun t => now - t < 86400) ++ [now] ∧
    (∀ t ∈ st'.minute_calls, now - t < 60) ∧
    (∀ t ∈ st'.day_calls, now - t < 86400) ∧
    st'.minute_calls.length ≤ st.calls_per_minute ∧
    st'.day_calls.length ≤ st.calls_per_day := by
  obtain ⟨hex, hlk, hm, hd, hst⟩ := waitIfNeeded_ok fuel st st' now h
  subst hst
  refine ⟨rfl, rfl, ?_, ?_, ?_, ?_⟩
  · intro t ht
    rcases List.mem_append.mp ht with hf | hn
    · exact of_decide_eq_true (List.mem_filter.mp hf).2
    · have ht2 : t = now := by simpa using hn
      rw [ht2, sub_self]
      norm_num
  · intro t ht
    rcases List.mem_append.mp ht with hf | hn
    · exact of_decide_eq_true (List.mem_filter.mp hf).2
    · have ht2 : t = now := by simpa using hn
      rw [ht2, sub_self]
      norm_num
  · have : ({ st with
        minute_calls := st.minute_calls.filter (fun t => now - t < 60) ++ [now]
        day_calls := st.day_calls.filter (fun t => now - t < 86400) ++ [now]
        lockHeld := false } : RateLimiter).minute_calls.length
      = (st.minute_calls.filter (fun t => now - t < 60)).length + 1 := by
      simp
    rw [this]
    omega
  · have : ({ st with
        minute_calls := st.minute_calls.filter (fun t => now - t < 60) ++ [now]
        day_calls := st.day_calls.filter (fun t => now - t < 86400) ++ [now]
        lockHeld := false } : RateLimiter).day_calls.length
      = (st.day_calls.filter (fun t => now - t < 86400)).length + 1 := by
      simp
    rw [this]
    omega

/-- Witness for C9: the first call of a fresh process records the single
timestamp `0` in the minute window. -/
theorem rate_limiter_window_invariant_witness :
    ({ freshRateLimiter with
        minute_calls := [(0 : ℚ)]
        day_calls := [(0 : ℚ)]
        lockHeld := false } : RateLimiter).minute_calls
      = freshRateLimiter.minute_calls.filter (fun t => (0 : ℚ) - t < 60) ++ [0] :=
  (rate_limiter_window_invariant 1 freshRateLimiter
    { freshRateLimiter with
        minute_calls := [(0 : ℚ)]
        day_calls := [(0 : ℚ)]
        lockHeld := false } 0
    (by norm_num [waitIfNeeded, dayPhase, freshRateLimiter])).1

/-- C10: the moderation adapter's result is `flagged = false` with no tags
for every input, not only on remote failure; the embedding of `check` takes
no remote-call outcome parameter because its body performs no remote call,
and its result does not depend on the content — content is never flagged. -/
theorem moderation_never_flags (content other : String) :
    moderationCheck content = { flagged := false, tags := [] } ∧
    moderationCheck content = moderationCheck other :=
  ⟨rfl, rfl⟩

end Claims

end GeminiService
